import Mathlib

/-!
Verification of the luz_optimon schedule compilation and evaluation engine
(`src/schedules.rs`, `src/lunaluz_deserialization.rs`).

Shallow embedding conventions:

* `DateTime<Utc>` and `TimeDelta` are modelled as integer numbers of
  nanoseconds (chrono stores UTC datetimes and spans with nanosecond
  precision on a leap-second-free timeline).  We do not model the finite
  range of chrono's types; the `checked` overflow panics of `TimeDelta`
  arithmetic are outside the model, but the silent `as i32` truncation in
  `most_recent_start` and the truncating `num_seconds` divisions are
  modelled exactly.
* Rust `f64` hour counts coming from the schedule file are modelled as
  exact rationals (`ℚ`); NaN/infinity are outside the model.
* Fallible Rust code (`Result<_, String>`) becomes `Except String _`.
* Code that can panic (slice indexing out of bounds, `i64` division by
  zero, `usize` underflow) returns `Option`, with `none` marking a panic.
* `serde_json::Value` is never inspected by this core (values are only
  cloned and returned), so schedule values are a type parameter `α`.
* `HashMap`s become association lists; iteration order of a `HashMap` is
  unspecified, so theorems about whole-map compilation hold for every
  list order.  Keys of the source maps are unique by construction, which
  appears as `Nodup` hypotheses where lookups matter.
-/

deriving instance DecidableEq for Except

namespace LuzOptimon

/- A UTC instant (`DateTime<Utc>`) and a chrono `TimeDelta` are both an
`Int` of nanoseconds (an instant counts from an arbitrary epoch).  `Int` is
used directly rather than through an abbreviation so that `omega` and
`linarith` see the arithmetic. -/

def nsPerSec : Int := 1000000000

def nsPerHour : Int := 3600 * nsPerSec

def nsPerDay : Int := 86400 * nsPerSec

/-- chrono `TimeDelta::num_seconds`: the whole number of seconds in a span,
truncated toward zero (for a span of `secs` seconds plus `0 ≤ nanos < 1e9`
nanoseconds it returns `secs + 1` when `secs < 0 < nanos`, i.e. exactly
truncating division of the total nanosecond count by `1e9`). -/
def numSeconds (n : Int) : Int := Int.tdiv n nsPerSec

/-- Two's-complement truncation of an `i64` value to `i32`
(the `approx_n as i32` cast in `PeriodicSchedule::most_recent_start`). -/
def wrapI32 (n : Int) : Int := (n + 2 ^ 31) % 2 ^ 32 - 2 ^ 31

/-- chrono `TimeDelta::hours`. -/
def hoursTD (h : Int) : Int := h * nsPerHour

/-- `midnight` (schedules.rs:9): rebuild the datetime at 00:00:00 of the same
calendar day, i.e. truncate a UTC instant down to the start of its UTC day
(chrono's UTC timeline has no leap seconds, so every day is exactly 86400 s
and `with_ymd_and_hms(y, m, d, 0, 0, 0)` is floor division by one day). -/
def midnight (t : Int) : Int := nsPerDay * Int.fdiv t nsPerDay

/-- `hours_to_td` (schedules.rs:55): `hours * 3.6e3` seconds converted through
`Duration::try_from_secs_f64` and `TimeDelta::from_std`.
`try_from_secs_f64` fails on negative input (NaN and out-of-range magnitudes
are outside the rational model of `f64`) and otherwise rounds to the nearest
nanosecond (the tie-to-even of the float code differs from the half-up here
only at an exact half nanosecond, immaterial to every claim).  The arithmetic
`⌊hours * 3600e9 + 1/2⌋` is written on the rational's numerator and
denominator so that the definition evaluates by kernel reduction;
`hours.num < 0 ↔ hours < 0`. -/
def hours_to_td (hours : ℚ) : Except String Int :=
  if hours.num < 0 then
    .error "can not convert float seconds to Duration: value is negative"
  else
    .ok (Int.fdiv (2 * hours.num * nsPerHour + (hours.den : Int)) (2 * (hours.den : Int)))

/-- `convert_times` (schedules.rs:61): convert each hour count, stopping at
the first failure (`collect` over an iterator of `Result`s). -/
def convert_times (times : List ℚ) : Except String (List Int) :=
  times.mapM hours_to_td

/-- Result of Rust `slice::binary_search`: `Ok(i)` at a matching index, or
`Err(i)` at the insertion point. -/
inductive BSearchResult where
  | found : Nat → BSearchResult
  | notFound : Nat → BSearchResult
deriving DecidableEq

/-- The loop of Rust `slice::binary_search_by` on a slice of `Int`s:
probe `mid = left + (right - left)/2`; on `Less` continue in
`(mid+1, right)`, on `Greater` in `(left, mid)`, on `Equal` return
`Ok(mid)`; when the window empties return `Err(left)`.  The loop is given
the window size as structural fuel: every iteration shrinks the window by
at least one, so with `right - left ≤ fuel` the fuel never runs out and
the `fuel = 0` branch is unreachable. -/
def bsearchGo (l : List Int) (x : Int) : Nat → Nat → Nat → BSearchResult
  | left, _, 0 => .notFound left
  | left, right, fuel + 1 =>
    if left < right then
      let mid := left + (right - left) / 2
      match l.get? mid with
      | none => .notFound left
      | some v =>
        if v < x then bsearchGo l x (mid + 1) right fuel
        else if x < v then bsearchGo l x left mid fuel
        else .found mid
    else .notFound left

/-- Rust `slice::binary_search` over the whole slice. -/
def binarySearch (l : List Int) (x : Int) : BSearchResult :=
  bsearchGo l x 0 l.length l.length

/-- `ConstantSchedule` (schedules.rs:84). -/
structure ConstantSchedule (α : Type) where
  var_type : String
  value : α
deriving DecidableEq

/-- `ConstantSchedule::new` (schedules.rs:90). -/
def ConstantSchedule.new (var_type : String) (value : α) : ConstantSchedule α :=
  ⟨var_type, value⟩

/-- `PeriodicSchedule` (schedules.rs:109). -/
structure PeriodicSchedule (α : Type) where
  var_type : String
  start_point : Int
  period : Int
  times : List Int
  values : List α
  default_val : α
deriving DecidableEq

/-- `PeriodicSchedule::most_recent_start` (schedules.rs:141):
`start_point + period * ((elapsed.num_seconds() / period.num_seconds()) as i32)`.
The `i64` division panics when `period.num_seconds() == 0` (modelled as
`none`; the `i64::MIN / -1` overflow panic needs a span beyond chrono's
representable range and is outside the model).  The `debug_assert!` is
compiled out of release builds and is not a panic of the function. -/
def PeriodicSchedule.most_recent_start (s : PeriodicSchedule α) (time : Int) :
    Option Int :=
  let elapsed := time - s.start_point
  if numSeconds s.period = 0 then none
  else
    let approx_n := Int.tdiv (numSeconds elapsed) (numSeconds s.period)
    some (s.start_point + s.period * wrapI32 approx_n)

/-- `PeriodicSchedule::fetch_schedule_point` (schedules.rs:152). -/
def PeriodicSchedule.fetch_schedule_point (s : PeriodicSchedule α) (time : Int) :
    Option Int :=
  (s.most_recent_start time).map (fun m => time - m)

/-- `PeriodicSchedule::floor_search` (schedules.rs:165).  `none` models a
panic: `times[0]` on an empty breakpoint slice (reached because `&&` only
short-circuits on `index != 0`), the `usize` underflow of `index - 1` when
`index == 0` but `schedule_time ≥ times[0]`, an out-of-range `values[_]`,
and the division-by-zero panic inside `fetch_schedule_point`. -/
def PeriodicSchedule.floor_search (s : PeriodicSchedule α) (time : Int) : Option α :=
  if s.start_point < time then
    match s.fetch_schedule_point time with
    | none => none
    | some schedule_time =>
      match binarySearch s.times schedule_time with
      | .found index => s.values.get? index
      | .notFound index =>
        if index = 0 then
          match s.times.get? 0 with
          | none => none
          | some t0 =>
            if schedule_time < t0 then some s.default_val
            else none
        else s.values.get? (index - 1)
  else some s.default_val

/-- `ConstantSchedule`'s `floor_search` (schedules.rs:99): always the value. -/
def ConstantSchedule.floor_search (c : ConstantSchedule α) (_time : Int) : Option α :=
  some c.value

/-- `ConstantSchedule`'s overridden `floor_multi_search` (schedules.rs:103):
`vec![self.value.clone(); times.len()]`. -/
def ConstantSchedule.floor_multi_search (c : ConstantSchedule α) (times : List Int) :
    List (Option α) :=
  List.replicate times.length (some c.value)

/-- The `Schedule` enum (schedules.rs:78). -/
inductive Schedule (α : Type) where
  | constant : ConstantSchedule α → Schedule α
  | periodic : PeriodicSchedule α → Schedule α
deriving DecidableEq

/-- `enum_dispatch` of `VarSchedule::floor_search` over `Schedule`. -/
def Schedule.floor_search : Schedule α → Int → Option α
  | .constant c, time => c.floor_search time
  | .periodic p, time => p.floor_search time

/-- `enum_dispatch` of `VarSchedule::floor_multi_search`: `ConstantSchedule`
overrides it, `PeriodicSchedule` inherits the trait's default body
`times.iter().map(|t| self.floor_search(t)).collect()` (schedules.rs:69). -/
def Schedule.floor_multi_search : Schedule α → List Int → List (Option α)
  | .constant c, times => c.floor_multi_search times
  | .periodic p, times => times.map p.floor_search

/-- `ScheduleType` (lunaluz_deserialization.rs:46). -/
inductive ScheduleType where
  | constant
  | periodic
  | default
deriving DecidableEq

/-- `ScheduleHeader` (lunaluz_deserialization.rs:38). -/
structure ScheduleHeader where
  variable_type : String
  schedule_type : Option ScheduleType
deriving DecidableEq

/-- The `ScheduleEntry` untagged union (lunaluz_deserialization.rs:55): the
declarative, pre-compilation form of one variable's schedule, keyed by which
fields are present. -/
inductive ScheduleEntry (α : Type) where
  | constant (header : ScheduleHeader) (value : α)
  | periodic (header : ScheduleHeader) (period : ℚ) (times : List ℚ)
      (values : List α) (offset_time : Option ℚ)
  | default (header : ScheduleHeader)
deriving DecidableEq

namespace ScheduleEntry

/-- `ScheduleEntry::header` (lunaluz_deserialization.rs:81). -/
def header : ScheduleEntry α → ScheduleHeader
  | .constant h _ => h
  | .periodic h _ _ _ _ => h
  | .default h => h

/-- `ScheduleEntry::schedule_type` (lunaluz_deserialization.rs:89): the kind
inferred from which fields are populated. -/
def schedule_type : ScheduleEntry α → ScheduleType
  | .constant _ _ => .constant
  | .periodic _ _ _ _ _ => .periodic
  | .default _ => .default

/-- `ScheduleEntry::variable_type` (lunaluz_deserialization.rs:97). -/
def variable_type (e : ScheduleEntry α) : String :=
  e.header.variable_type

/-- Field accessors of the revision of `ScheduleEntry` consumed by
`parse_schedules` (schedules.rs reads `schedule.value`, `schedule.period`,
`schedule.times`, `schedule.values`, `schedule.offset_time` as `Option`
fields; that struct-shaped revision is not among the sources, so — per the
spec's data model, which keys the three kinds by which fields are present —
each field is `some` exactly on the variant that carries it). -/
def value : ScheduleEntry α → Option α
  | .constant _ v => some v
  | _ => none

def period : ScheduleEntry α → Option ℚ
  | .periodic _ p _ _ _ => some p
  | _ => none

def times : ScheduleEntry α → Option (List ℚ)
  | .periodic _ _ t _ _ => some t
  | _ => none

def values : ScheduleEntry α → Option (List α)
  | .periodic _ _ _ v _ => some v
  | _ => none

def offset_time : ScheduleEntry α → Option ℚ
  | .periodic _ _ _ _ o => o
  | _ => none

/-- `ScheduleEntry::is_valid` (lunaluz_deserialization.rs:101): an explicit
schedule-type tag must match the inferred kind, and a T24 periodic entry
(`period == 24.0`) must not carry an `offset_time`.  The error strings keep
the fixed prose of the source `format!` calls (the `{:?}` renderings of the
two kinds in the mismatch message are elided). -/
def is_valid (e : ScheduleEntry α) : Except String Unit :=
  let tagCheck : Except String Unit :=
    match e.header.schedule_type with
    | some specified =>
      if e.schedule_type = specified then .ok ()
      else
        .error ("Fields of '" ++ e.variable_type ++
          "' do not match specified schedule type")
    | none => .ok ()
  match tagCheck with
  | .error msg => .error msg
  | .ok _ =>
    match e with
    | .periodic _ p _ _ offset =>
      if p = 24 ∧ offset.isSome then
        .error ("Error parsing " ++ e.variable_type ++
          ": T24 Periodic schedules are not allowed to include an offset time")
      else .ok ()
    | _ => .ok ()

end ScheduleEntry

/-- `VariableTypeSpec` (lunaluz_deserialization.rs:20); only `default` is read
by the compiler (`var_type`, `description` and `categories` are informational
and never consulted by this core). -/
structure VariableTypeSpec (α : Type) where
  default : α
deriving DecidableEq

/-- The metadata fields of `ScheduleInfo` (lunaluz_deserialization.rs:136)
that `parse_schedules` reads.  `start_date` and `start_offset` are textual in
the file; their ISO-8601 parsers (`parse_datetime_iso8601`,
`parse_duration_iso8601`) are string-format plumbing outside this core, so
the fields carry the parse result: `some` the parsed instant/span, `none` an
unparseable string. -/
structure ScheduleInfo where
  timezone : Int
  start_date : Option Int
  start_offset : Option Int
deriving DecidableEq

/-- The `ScheduleFile` consumed by `parse_schedules`: variable-type registry,
per-variable schedule entries, and metadata (the fields of the top-level
container read by schedules.rs).  The two `HashMap`s become association
lists; `variable_schedules`'s order stands for the map's (unspecified)
iteration order. -/
structure ScheduleFile (α : Type) where
  var_type_specs : List (String × VariableTypeSpec α)
  variable_schedules : List (String × ScheduleEntry α)
  info : ScheduleInfo
deriving DecidableEq

/-- `PeriodicSchedule::new` (schedules.rs:119): convert the hour counts and
build the schedule.  No validation of breakpoint order or of the
`times`/`values` lengths happens here (or anywhere else in schedules.rs). -/
def PeriodicSchedule.new (var_type : String) (start_date : Int) (period : ℚ)
    (times : List ℚ) (values : List α) (default_val : α) :
    Except String (PeriodicSchedule α) :=
  match Except.mapError
      (fun e => "Failed to parse period for periodic schedule: " ++ e)
      (hours_to_td period) with
  | .error e => .error e
  | .ok periodTD =>
    match Except.mapError
        (fun e => "Failed to parse time(s) for periodic schedule: " ++ e)
        (convert_times times) with
    | .error e => .error e
    | .ok timesTD => .ok ⟨var_type, start_date, periodTD, timesTD, values, default_val⟩

/-- The body of the `for` loop of `parse_schedules` (schedules.rs:202):
resolve the variable type (`Unknown variable type` on a missing registry
key), then build the resolved schedule for the entry's kind.  For a
periodic entry the anchor is `t24_start_point` when `period == 24.0`
(any `offset_time` is ignored), else `start_date + offset_time` when an
offset is given, else `start_date`. -/
def parse_entry (specs : List (String × VariableTypeSpec α))
    (start_date t24_start_point : Int) (name : String) (entry : ScheduleEntry α) :
    Except String (Schedule α) :=
  match specs.lookup entry.variable_type with
  | none => .error ("Unknown variable type for " ++ name)
  | some spec =>
    match entry.schedule_type with
    | .constant | .default =>
      .ok (.constant (ConstantSchedule.new entry.variable_type
        (entry.value.getD spec.default)))
    | .periodic =>
      match entry.period with
      | none => .error ("No period provided for " ++ name)
      | some period =>
        let startRes : Except String Int :=
          if period = 24 then .ok t24_start_point
          else
            match entry.offset_time with
            | some ot =>
              Except.mapError
                (fun e => "Failed to parse offset time for '" ++ name ++ "': " ++ e)
                (Except.map (fun d => start_date + d) (hours_to_td ot))
            | none => .ok start_date
        match startRes with
        | .error e => .error e
        | .ok start_point =>
          match entry.times with
          | none => .error ("No times found for '" ++ name ++ "'")
          | some times0 =>
            match entry.values with
            | none => .error ("No values found for '" ++ name ++ "'")
            | some values0 =>
              Except.map Schedule.periodic
                (PeriodicSchedule.new entry.variable_type start_point period
                  times0 values0 spec.default)

/-- The iteration of `parse_schedules` over `file.variable_schedules`
(schedules.rs:202-248): each entry compiles or the whole run aborts with the
entry's error (`?`); successful results are inserted under the entry's name. -/
def parse_schedules_go (specs : List (String × VariableTypeSpec α))
    (start_date t24_start_point : Int) :
    List (String × ScheduleEntry α) → Except String (List (String × Schedule α))
  | [] => .ok []
  | (name, entry) :: rest =>
    match parse_entry specs start_date t24_start_point name entry with
    | .error e => .error e
    | .ok s =>
      match parse_schedules_go specs start_date t24_start_point rest with
      | .error e => .error e
      | .ok m => .ok ((name, s) :: m)

/-- `parse_schedules` (schedules.rs:188): parse the metadata, compute the
shared T24 anchor
`midnight(start_date + timezone) + start_offset - timezone`,
then compile every entry (all-or-nothing). -/
def parse_schedules (file : ScheduleFile α) :
    Except String (List (String × Schedule α)) :=
  match file.info.start_date with
  | none => .error "Invalid start date format"
  | some start_date =>
    let timezone := hoursTD file.info.timezone
    match file.info.start_offset with
    | none => .error "Invalid time duration"
    | some start_offset =>
      let t24_start_point := midnight (start_date + timezone) + start_offset - timezone
      parse_schedules_go file.var_type_specs start_date t24_start_point
        file.variable_schedules

/-- Modelled from the spec: the loader that feeds `parse_schedules` runs the
deserialization layer's per-entry validation first (§4.1: «Validate
`period == 24h ⇒ offset_time absent` … validate … strict ascending order»;
`ScheduleEntry::is_valid` is declared in lunaluz_deserialization.rs but its
caller — the binary wiring deserialization to compilation — is not among the
sources).  `compile` is that pipeline: every entry passes `is_valid`, then
`parse_schedules` runs. -/
def validate_entries : List (String × ScheduleEntry α) → Except String Unit
  | [] => .ok ()
  | (_, entry) :: rest =>
    match entry.is_valid with
    | .error e => .error e
    | .ok _ => validate_entries rest

/-- Modelled from the spec (see `validate_entries`): full compilation =
validation of every declarative entry followed by `parse_schedules`. -/
def compile (file : ScheduleFile α) : Except String (List (String × Schedule α)) :=
  match validate_entries file.variable_schedules with
  | .error e => .error e
  | .ok _ => parse_schedules file

/-- The spec's `localMidnight(start_date, timezone)` (§4.1): local midnight of
the start day, expressed on the local clock, for a fixed hour offset
timezone.  Stated from the spec's words for comparison with the compiled
anchor. -/
def localMidnight (t : Int) (timezoneHours : Int) : Int :=
  midnight (t + hoursTD timezoneHours)

/-! ### Concrete inputs used by witnesses and counterexamples -/

/-- A one-hour periodic schedule anchored at `0` with a single breakpoint at
offset `0` (value `1`, default `0`). -/
def exAnchor : PeriodicSchedule Int :=
  ⟨"T", 0, 3600000000000, [0], [1], 0⟩

/-- A four-hour periodic schedule anchored at `0` with breakpoints at one and
two hours (values `10`, `20`, default `0`). -/
def exFloor : PeriodicSchedule Int :=
  ⟨"T", 0, 14400000000000, [3600000000000, 7200000000000], [10, 20], 0⟩

/-- A file whose single entry is a T24 periodic schedule carrying an
`offset_time`. -/
def exFileT24Offset : ScheduleFile Int :=
  ⟨[("T", ⟨0⟩)], [("v", .periodic ⟨"T", none⟩ 24 [0] [7] (some 1))],
    ⟨0, some 0, some 0⟩⟩

/-- A file whose single entry names a variable type absent from the
registry. -/
def exFileUnknown : ScheduleFile Int :=
  ⟨[("T", ⟨0⟩)], [("v", .default ⟨"U", none⟩)], ⟨0, some 0, some 0⟩⟩

/-- A file with one T24 periodic entry, a five-hour timezone, start date
`123` ns and start offset `11` ns. -/
def exFileT24 : ScheduleFile Int :=
  ⟨[("T", ⟨0⟩)], [("v", .periodic ⟨"T", none⟩ 24 [0] [7] none)],
    ⟨5, some 123, some 11⟩⟩

/-- A file whose single periodic entry has unsorted breakpoints `[2, 1]` and
a `values` array of a different length (`[7]`). -/
def exFileUnsorted : ScheduleFile Int :=
  ⟨[("T", ⟨0⟩)], [("v", .periodic ⟨"T", none⟩ 6 [2, 1] [7] none)],
    ⟨0, some 0, some 0⟩⟩

/-- A file whose single periodic entry has empty `times` and `values`. -/
def exFileEmpty : ScheduleFile Int :=
  ⟨[("T", ⟨0⟩)], [("v", .periodic ⟨"T", none⟩ 1 [] [] none)],
    ⟨0, some 0, some 0⟩⟩

/-- The resolved schedule `parse_schedules` builds from `exFileEmpty`'s
entry: a one-hour period with no breakpoints. -/
def exEmptySchedule : PeriodicSchedule Int :=
  ⟨"T", 0, 3600000000000, [], [], 0⟩

/-! ### Lemmas about the binary-search loop -/

theorem pairwise_get?_lt {l : List Int} (hs : List.Pairwise (· < ·) l)
    {i j : Nat} {a b : Int} (hij : i < j)
    (ha : l.get? i = some a) (hb : l.get? j = some b) : a < b := by
  rw [List.get?_eq_some] at ha hb
  obtain ⟨hi, rfl⟩ := ha
  obtain ⟨hj, rfl⟩ := hb
  exact List.pairwise_iff_get.mp hs ⟨i, hi⟩ ⟨j, hj⟩ (Fin.mk_lt_mk.mpr hij)

/-- A successful probe really found the target. -/
theorem bsearchGo_found (l : List Int) (x : Int) :
    ∀ (fuel left right i : Nat),
      bsearchGo l x left right fuel = .found i → l.get? i = some x := by
  intro fuel
  induction fuel with
  | zero =>
    intro left right i h
    simp [bsearchGo] at h
  | succ n ih =>
    intro left right i h
    simp only [bsearchGo] at h
    split at h
    · split at h
      · simp at h
      · rename_i v hm
        split at h
        · exact ih _ _ _ h
        · split at h
          · exact ih _ _ _ h
          · rename_i hnlt hngt
            cases h
            have hvx : v = x := le_antisymm (not_lt.mp hngt) (not_lt.mp hnlt)
            rw [hm, hvx]
    · simp at h

/-- A failed search separates the list at the insertion point: everything
before index `i` is `< x` and everything from index `i` on is `> x`
(for a strictly ascending list, given a window with the matching outer
invariants and enough fuel). -/
theorem bsearchGo_notFound (l : List Int) (x : Int)
    (hs : List.Pairwise (· < ·) l) :
    ∀ (fuel left right i : Nat),
      right ≤ l.length → left ≤ right → right - left ≤ fuel →
      (∀ j v, j < left → l.get? j = some v → v < x) →
      (∀ j v, right ≤ j → l.get? j = some v → x < v) →
      bsearchGo l x left right fuel = .notFound i →
      left ≤ i ∧ i ≤ right ∧
      (∀ j v, j < i → l.get? j = some v → v < x) ∧
      (∀ j v, i ≤ j → l.get? j = some v → x < v) := by
  intro fuel
  induction fuel with
  | zero =>
    intro left right i hrl hlr hfuel hL hR h
    have hleft : left = right := by omega
    rw [bsearchGo] at h
    cases h
    subst hleft
    exact ⟨le_refl _, le_refl _, hL, hR⟩
  | succ n ih =>
    intro left right i hrl hlr hfuel hL hR h
    simp only [bsearchGo] at h
    split at h
    · rename_i hwin
      split at h
      · rename_i hm
        exfalso
        have hmidlt : left + (right - left) / 2 < l.length := by omega
        rw [List.get?_eq_none] at hm
        omega
      · rename_i v hm
        split at h
        · rename_i hvx
          refine (fun r => ⟨by omega, r.2.1, r.2.2⟩) (ih (left + (right - left) / 2 + 1) right i hrl (by omega) (by omega) ?_ hR h)
          intro j w hj hw
          rcases lt_trichotomy j (left + (right - left) / 2) with hlt | rfl | hgt
          · rcases Nat.lt_or_ge j left with hjl | hjl
            · exact hL j w hjl hw
            · exact lt_trans (pairwise_get?_lt hs hlt hw hm) hvx
          · rw [hw] at hm
            cases hm
            exact hvx
          · omega
        · rename_i hxv
          rw [not_lt] at hxv
          split at h
          · rename_i hxvlt
            refine (fun r => ⟨r.1, by omega, r.2.2.1, r.2.2.2⟩) (ih left (left + (right - left) / 2) i (by omega) (by omega) (by omega) hL ?_ h)
            intro j w hj hw
            rcases Nat.lt_or_ge j right with hjr | hjr
            · rcases Nat.eq_or_lt_of_le hj with rfl | hgt
              · rw [hw] at hm
                cases hm
                exact hxvlt
              · exact lt_trans hxvlt (pairwise_get?_lt hs hgt hm hw)
            · exact hR j w hjr hw
          · simp at h
    · rename_i hwin
      cases h
      have hleft : left = right := by omega
      subst hleft
      exact ⟨le_refl _, le_refl _, hL, hR⟩

/-- `slice::binary_search` on a strictly ascending slice, `Ok` case. -/
theorem binarySearch_found {l : List Int} {x : Int} {i : Nat}
    (h : binarySearch l x = .found i) : l.get? i = some x :=
  bsearchGo_found l x l.length 0 l.length i h

/-- `slice::binary_search` on a strictly ascending slice, `Err` case: `i` is
the insertion point. -/
theorem binarySearch_notFound {l : List Int} {x : Int} {i : Nat}
    (hs : List.Pairwise (· < ·) l) (h : binarySearch l x = .notFound i) :
    i ≤ l.length ∧
    (∀ j v, j < i → l.get? j = some v → v < x) ∧
    (∀ j v, i ≤ j → l.get? j = some v → x < v) := by
  have := bsearchGo_notFound l x hs l.length 0 l.length i (le_refl _)
    (Nat.zero_le _) (by omega)
    (fun j v hj _ => absurd hj (Nat.not_lt_zero j))
    (fun j v hj hv => by
      rw [List.get?_eq_some] at hv
      obtain ⟨hlt, _⟩ := hv
      omega)
    h
  exact ⟨this.2.1, this.2.2.1, this.2.2.2⟩

/-! ### Floor-lookup correctness of `floor_search` -/

/-- Claim C1 (amended): for a periodic schedule with strictly ascending
breakpoints `[t0 < t1 < … < tk]` and parallel values `[v0..vk]`, and every
query instant strictly after the anchor whose cycle-relative offset
(`fetch_schedule_point`) is `x ∈ [0, period)`: `floor_search` returns
`default` if `x < t0`, returns `vi` if `ti ≤ x < t(i+1)`, and returns `vk`
if `x ≥ tk` (the second conjunct covers the last two cases at once: its
guard on `t(i+1)` is vacuous at `i = k`).  The claim's «at or after the
anchor» must be weakened to «strictly after»: at the anchor itself the
code's `time > start_point` test fails and the breakpoint at offset `0`,
when there is one, is ignored (see the counterexample). -/
theorem floor_search_floor_correct {α : Type} (s : PeriodicSchedule α)
    (hsort : List.Pairwise (· < ·) s.times)
    (hlen : s.values.length = s.times.length)
    (time : Int) (ht : s.start_point < time)
    (x : Int) (hx : s.fetch_schedule_point time = some x)
    (hx0 : 0 ≤ x) (hxP : x < s.period) :
    (∀ t0, s.times.get? 0 = some t0 → x < t0 →
      s.floor_search time = some s.default_val) ∧
    (∀ i ti, s.times.get? i = some ti → ti ≤ x →
      (∀ ti1, s.times.get? (i + 1) = some ti1 → x < ti1) →
      s.floor_search time = s.values.get? i) := by
  have hfs : s.floor_search time =
      match binarySearch s.times x with
      | .found index => s.values.get? index
      | .notFound index =>
        if index = 0 then
          match s.times.get? 0 with
          | none => none
          | some t0 => if x < t0 then some s.default_val else none
        else s.values.get? (index - 1) := by
    rw [PeriodicSchedule.floor_search, if_pos ht, hx]
  constructor
  · intro t0 h0 hxt0
    rw [hfs]
    cases hb : binarySearch s.times x with
    | found j =>
      exfalso
      have hj := binarySearch_found hb
      rcases Nat.eq_zero_or_pos j with rfl | hjpos
      · rw [hj] at h0
        cases h0
        exact absurd hxt0 (lt_irrefl _)
      · exact absurd (lt_trans (pairwise_get?_lt hsort hjpos h0 hj) hxt0) (lt_irrefl _)
    | notFound j =>
      have hnf := binarySearch_notFound hsort hb
      have hj0 : j = 0 := by
        by_contra hne
        have hpos : 0 < j := Nat.pos_of_ne_zero hne
        have ht0x : t0 < x := hnf.2.1 0 t0 hpos h0
        exact absurd (lt_trans ht0x hxt0) (lt_irrefl _)
      subst hj0
      dsimp only
      rw [if_pos rfl, h0]
      dsimp only
      rw [if_pos hxt0]
  · intro i ti hi hle hnext
    rw [hfs]
    cases hb : binarySearch s.times x with
    | found j =>
      have hj := binarySearch_found hb
      have hij : j = i := by
        rcases lt_trichotomy j i with hlt | rfl | hgt
        · have hxti : x < ti := pairwise_get?_lt hsort hlt hj hi
          exact absurd hxti (not_lt.mpr hle)
        · rfl
        · exfalso
          have hjlen : j < s.times.length := (List.get?_eq_some.mp hj).1
          have hi1len : i + 1 < s.times.length := by omega
          have hti1 : s.times.get? (i + 1) = some (s.times.get ⟨i + 1, hi1len⟩) :=
            List.get?_eq_get hi1len
          have hxlt : x < s.times.get ⟨i + 1, hi1len⟩ := hnext _ hti1
          rcases Nat.eq_or_lt_of_le (Nat.succ_le_of_lt hgt) with heq | hgt1
          · rw [← heq] at hj
            rw [hti1] at hj
            cases hj
            exact absurd hxlt (lt_irrefl _)
          · have hlt2 : s.times.get ⟨i + 1, hi1len⟩ < x := pairwise_get?_lt hsort hgt1 hti1 hj
            exact absurd (lt_trans hxlt hlt2) (lt_irrefl _)
      subst hij
      rfl
    | notFound j =>
      have hnf := binarySearch_notFound hsort hb
      have hji : j = i + 1 := by
        have hile : i < j := by
          by_contra hle2
          push_neg at hle2
          have hxti : x < ti := hnf.2.2 i ti hle2 hi
          exact absurd hxti (not_lt.mpr hle)
        by_contra hne
        have hgt : i + 1 < j := by omega
        have hi1len : i + 1 < s.times.length := by
          have := hnf.1
          omega
        have hti1 : s.times.get? (i + 1) = some (s.times.get ⟨i + 1, hi1len⟩) :=
          List.get?_eq_get hi1len
        have h1 : s.times.get ⟨i + 1, hi1len⟩ < x := hnf.2.1 (i + 1) _ hgt hti1
        have h2 : x < s.times.get ⟨i + 1, hi1len⟩ := hnext _ hti1
        exact absurd (lt_trans h1 h2) (lt_irrefl _)
      subst hji
      simp

/-! ### Periodicity of `floor_search` -/

theorem nsPerSec_pos : (0 : Int) < nsPerSec := by norm_num [nsPerSec]

/-- `num_seconds` of an exact whole number of seconds. -/
theorem numSeconds_mul_nsPerSec (p : Int) (hp : 0 ≤ p) :
    numSeconds (p * nsPerSec) = p := by
  rw [numSeconds, Int.tdiv_eq_ediv (mul_nonneg hp nsPerSec_pos.le) nsPerSec_pos.le]
  exact Int.mul_ediv_cancel p nsPerSec_pos.ne'

/-- The `as i32` cast is the identity on the `i32` range (nonnegative side). -/
theorem wrapI32_eq_self {n : Int} (h0 : 0 ≤ n) (h1 : n < 2 ^ 31) : wrapI32 n = n := by
  rw [wrapI32, Int.emod_eq_of_lt (by omega) (by omega)]
  omega

/-- Claim C2 (amended): evaluation is invariant under shifting the query by a
whole number of periods, for a periodic schedule whose period is a positive
whole number of seconds, for query instants strictly after the anchor on both
sides, as long as both cycle indices (`elapsed.num_seconds() /
period.num_seconds()`) stay below `2^31`.  Each restriction marks a real
failure mode of the code: at `at == anchor` the strict `time > start_point`
test short-circuits to `default` (see the counterexample); for a period with
a fractional second the `num_seconds` truncations misalign the cycle start;
and from cycle `2^31` on, `approx_n as i32` wraps. -/
theorem floor_search_periodic {α : Type} (s : PeriodicSchedule α) (p : Int)
    (hp : 0 < p) (hper : s.period = p * nsPerSec) (t k : Int)
    (h1 : s.start_point < t) (h2 : s.start_point < t + k * s.period)
    (hb1 : Int.tdiv (numSeconds (t - s.start_point)) (numSeconds s.period) < 2 ^ 31)
    (hb2 : Int.tdiv (numSeconds (t + k * s.period - s.start_point))
      (numSeconds s.period) < 2 ^ 31) :
    s.floor_search (t + k * s.period) = s.floor_search t := by
  have hsec : numSeconds s.period = p := by
    rw [hper]
    exact numSeconds_mul_nsPerSec p hp.le
  have hsecne : numSeconds s.period ≠ 0 := by
    rw [hsec]
    exact hp.ne'
  have hE1 : (0 : Int) ≤ t - s.start_point := by linarith
  have hE2 : (0 : Int) ≤ t + k * s.period - s.start_point := by linarith
  -- the two cycle indices differ by exactly k
  have hns1 : numSeconds (t - s.start_point) = (t - s.start_point) / nsPerSec := by
    rw [numSeconds, Int.tdiv_eq_ediv hE1 nsPerSec_pos.le]
  have hns2 : numSeconds (t + k * s.period - s.start_point) =
      (t - s.start_point) / nsPerSec + k * p := by
    rw [numSeconds, Int.tdiv_eq_ediv hE2 nsPerSec_pos.le]
    have : t + k * s.period - s.start_point = (t - s.start_point) + (k * p) * nsPerSec := by
      rw [hper]
      ring
    rw [this, Int.add_mul_ediv_right _ _ nsPerSec_pos.ne']
  have hn1 : Int.tdiv (numSeconds (t - s.start_point)) (numSeconds s.period) =
      (t - s.start_point) / nsPerSec / p := by
    rw [hns1, hsec, Int.tdiv_eq_ediv (Int.ediv_nonneg hE1 nsPerSec_pos.le) hp.le]
  have hns2nonneg : 0 ≤ numSeconds (t + k * s.period - s.start_point) := by
    rw [numSeconds]
    exact Int.tdiv_nonneg hE2 nsPerSec_pos.le
  have hn2 : Int.tdiv (numSeconds (t + k * s.period - s.start_point)) (numSeconds s.period) =
      (t - s.start_point) / nsPerSec / p + k := by
    rw [hsec, Int.tdiv_eq_ediv hns2nonneg hp.le, hns2,
      Int.add_mul_ediv_right _ _ hp.ne']
  have hn0 : 0 ≤ (t - s.start_point) / nsPerSec / p :=
    Int.ediv_nonneg (Int.ediv_nonneg hE1 nsPerSec_pos.le) hp.le
  have hnlt : (t - s.start_point) / nsPerSec / p < 2 ^ 31 := by
    rw [hn1] at hb1
    exact hb1
  have hnk0 : 0 ≤ (t - s.start_point) / nsPerSec / p + k := by
    have h := @Int.tdiv_nonneg (numSeconds (t + k * s.period - s.start_point))
      (numSeconds s.period) hns2nonneg (by rw [hsec]; exact hp.le)
    rw [hn2] at h
    exact h
  have hnklt : (t - s.start_point) / nsPerSec / p + k < 2 ^ 31 := by
    rw [hn2] at hb2
    exact hb2
  have hm1 : s.most_recent_start t =
      some (s.start_point + s.period * ((t - s.start_point) / nsPerSec / p)) := by
    rw [PeriodicSchedule.most_recent_start]
    simp only [if_neg hsecne]
    rw [hn1, wrapI32_eq_self hn0 hnlt]
  have hm2 : s.most_recent_start (t + k * s.period) =
      some (s.start_point + s.period * ((t - s.start_point) / nsPerSec / p + k)) := by
    rw [PeriodicSchedule.most_recent_start]
    simp only [if_neg hsecne]
    rw [hn2, wrapI32_eq_self hnk0 hnklt]
  have hf1 : s.fetch_schedule_point t =
      some (t - s.start_point - s.period * ((t - s.start_point) / nsPerSec / p)) := by
    rw [PeriodicSchedule.fetch_schedule_point, hm1, Option.map_some']
    exact congrArg some (by ring)
  have hf2 : s.fetch_schedule_point (t + k * s.period) =
      some (t - s.start_point - s.period * ((t - s.start_point) / nsPerSec / p)) := by
    rw [PeriodicSchedule.fetch_schedule_point, hm2, Option.map_some']
    exact congrArg some (by ring)
  rw [PeriodicSchedule.floor_search, PeriodicSchedule.floor_search,
    if_pos h1, if_pos h2, hf1, hf2]

/-! ### Lemmas about compilation -/

theorem parse_entry_unknown {α : Type} (specs : List (String × VariableTypeSpec α))
    (start_date t24 : Int) (name : String) (entry : ScheduleEntry α)
    (h : specs.lookup entry.variable_type = none) :
    parse_entry specs start_date t24 name entry =
      .error ("Unknown variable type for " ++ name) := by
  rw [parse_entry, h]

theorem parse_schedules_go_error_of_mem {α : Type}
    (specs : List (String × VariableTypeSpec α)) (start_date t24 : Int)
    (entries : List (String × ScheduleEntry α)) (name : String) (e : ScheduleEntry α)
    (hmem : (name, e) ∈ entries) (msg : String)
    (herr : parse_entry specs start_date t24 name e = .error msg) :
    ∃ msg2, parse_schedules_go specs start_date t24 entries = .error msg2 := by
  induction entries with
  | nil => cases hmem
  | cons head rest ih =>
    obtain ⟨n0, e0⟩ := head
    rcases List.mem_cons.mp hmem with heq | hmem2
    · cases heq
      rw [parse_schedules_go, herr]
      exact ⟨msg, rfl⟩
    · obtain ⟨msg2, h2⟩ := ih hmem2
      rw [parse_schedules_go]
      cases hp : parse_entry specs start_date t24 n0 e0 with
      | error e1 => exact ⟨e1, rfl⟩
      | ok s =>
        rw [h2]
        exact ⟨msg2, rfl⟩

theorem parse_schedules_go_ok_mem {α : Type}
    (specs : List (String × VariableTypeSpec α)) (start_date t24 : Int)
    (entries : List (String × ScheduleEntry α)) (name : String) (e : ScheduleEntry α) :
    ∀ (m : List (String × Schedule α)),
      parse_schedules_go specs start_date t24 entries = .ok m →
      (name, e) ∈ entries →
      ∃ s, parse_entry specs start_date t24 name e = .ok s ∧ (name, s) ∈ m := by
  induction entries with
  | nil =>
    intro m _ hmem
    cases hmem
  | cons head rest ih =>
    obtain ⟨n0, e0⟩ := head
    intro m hok hmem
    rw [parse_schedules_go] at hok
    cases hp : parse_entry specs start_date t24 n0 e0 with
    | error e1 =>
      rw [hp] at hok
      simp at hok
    | ok s0 =>
      rw [hp] at hok
      cases hg : parse_schedules_go specs start_date t24 rest with
      | error e1 =>
        rw [hg] at hok
        simp at hok
      | ok m0 =>
        rw [hg] at hok
        simp only [Except.ok.injEq] at hok
        subst hok
        rcases List.mem_cons.mp hmem with heq | hmem2
        · cases heq
          exact ⟨s0, hp, List.mem_cons_self _ _⟩
        · obtain ⟨s, hs, hm⟩ := ih m0 hg hmem2
          exact ⟨s, hs, List.mem_cons_of_mem _ hm⟩

theorem parse_schedules_go_keys {α : Type}
    (specs : List (String × VariableTypeSpec α)) (start_date t24 : Int)
    (entries : List (String × ScheduleEntry α)) :
    ∀ (m : List (String × Schedule α)),
      parse_schedules_go specs start_date t24 entries = .ok m →
      m.map Prod.fst = entries.map Prod.fst := by
  induction entries with
  | nil =>
    intro m hok
    rw [parse_schedules_go] at hok
    simp only [Except.ok.injEq] at hok
    subst hok
    rfl
  | cons head rest ih =>
    obtain ⟨n0, e0⟩ := head
    intro m hok
    rw [parse_schedules_go] at hok
    cases hp : parse_entry specs start_date t24 n0 e0 with
    | error e1 =>
      rw [hp] at hok
      simp at hok
    | ok s0 =>
      rw [hp] at hok
      cases hg : parse_schedules_go specs start_date t24 rest with
      | error e1 =>
        rw [hg] at hok
        simp at hok
      | ok m0 =>
        rw [hg] at hok
        simp only [Except.ok.injEq] at hok
        subst hok
        simp [ih m0 hg]

/-- First-match lookup of an association list with `Nodup` keys finds any
member (the `HashMap`s of the source have unique keys by construction). -/
theorem lookup_of_mem_nodup {β : Type} (l : List (String × β)) (k : String) (v : β)
    (hnodup : (l.map Prod.fst).Nodup) (hmem : (k, v) ∈ l) : l.lookup k = some v := by
  induction l with
  | nil => cases hmem
  | cons head rest ih =>
    obtain ⟨k0, v0⟩ := head
    rcases List.mem_cons.mp hmem with heq | hmem2
    · cases heq
      simp [List.lookup]
    · have hnd := List.nodup_cons.mp hnodup
      have hkmem : k ∈ rest.map Prod.fst := List.mem_map_of_mem Prod.fst hmem2
      have hk : k ≠ k0 := by
        rintro rfl
        exact hnd.1 hkmem
      have hbeq : (k == k0) = false := beq_eq_false_iff_ne.mpr hk
      rw [List.lookup, hbeq]
      exact ih hnd.2 hmem2

theorem validate_entries_error_of_mem {α : Type}
    (entries : List (String × ScheduleEntry α)) (name : String) (e : ScheduleEntry α)
    (hmem : (name, e) ∈ entries) (msg : String) (herr : e.is_valid = .error msg) :
    ∃ msg2, validate_entries entries = .error msg2 := by
  induction entries with
  | nil => cases hmem
  | cons head rest ih =>
    obtain ⟨n0, e0⟩ := head
    rcases List.mem_cons.mp hmem with heq | hmem2
    · cases heq
      rw [validate_entries, herr]
      exact ⟨msg, rfl⟩
    · obtain ⟨msg2, h2⟩ := ih hmem2
      rw [validate_entries]
      cases hv : e0.is_valid with
      | error e1 => exact ⟨e1, rfl⟩
      | ok u =>
        rw [h2]
        exact ⟨msg2, rfl⟩

/-- A T24 periodic entry with an offset never passes `is_valid`, and when its
explicit tag (if any) is consistent the error is the T24-offset one. -/
theorem is_valid_t24_offset {α : Type} (h : ScheduleHeader) (ts : List ℚ)
    (vs : List α) (ot : ℚ) :
    (∃ msg, (ScheduleEntry.periodic h 24 ts vs (some ot)).is_valid = .error msg) ∧
    ((h.schedule_type = none ∨ h.schedule_type = some .periodic) →
      (ScheduleEntry.periodic h 24 ts vs (some ot)).is_valid = .error
        ("Error parsing " ++ h.variable_type ++
          ": T24 Periodic schedules are not allowed to include an offset time")) := by
  constructor
  · rcases htag : h.schedule_type with _ | tag
    · exact ⟨"Error parsing " ++ h.variable_type ++
        ": T24 Periodic schedules are not allowed to include an offset time", by
        rw [ScheduleEntry.is_valid]
        simp [htag, ScheduleEntry.variable_type, ScheduleEntry.header]⟩
    · cases tag with
      | periodic =>
        exact ⟨"Error parsing " ++ h.variable_type ++
          ": T24 Periodic schedules are not allowed to include an offset time", by
          rw [ScheduleEntry.is_valid]
          simp [htag, ScheduleEntry.schedule_type, ScheduleEntry.variable_type,
            ScheduleEntry.header]⟩
      | constant =>
        exact ⟨"Fields of '" ++ h.variable_type ++
          "' do not match specified schedule type", by
          rw [ScheduleEntry.is_valid]
          simp [htag, ScheduleEntry.schedule_type, ScheduleEntry.variable_type,
            ScheduleEntry.header]⟩
      | default =>
        exact ⟨"Fields of '" ++ h.variable_type ++
          "' do not match specified schedule type", by
          rw [ScheduleEntry.is_valid]
          simp [htag, ScheduleEntry.schedule_type, ScheduleEntry.variable_type,
            ScheduleEntry.header]⟩
  · intro htag
    rw [ScheduleEntry.is_valid]
    rcases htag with htag | htag
    · simp [htag, ScheduleEntry.variable_type, ScheduleEntry.header]
    · simp [htag, ScheduleEntry.schedule_type, ScheduleEntry.variable_type,
        ScheduleEntry.header]

/-! ### Claim theorems: evaluation -/

/-- Claim C6: for every periodic schedule and every query instant strictly
before the anchor, `floor_search` returns the default value, regardless of
the breakpoints and values arrays (the arrays are never touched: the
`time > start_point` test fails first). -/
theorem floor_search_pre_anchor {α : Type} (s : PeriodicSchedule α) (t : Int)
    (h : t < s.start_point) : s.floor_search t = some s.default_val := by
  rw [PeriodicSchedule.floor_search, if_neg (by linarith)]

/-- Witness for C6 at a concrete input. -/
theorem floor_search_pre_anchor_witness :
    exAnchor.floor_search (-5) = some exAnchor.default_val :=
  floor_search_pre_anchor exAnchor (-5) (by decide)

/-- Claim C10: evaluating a periodic schedule at exactly its anchor returns
the default value — even when a breakpoint sits at offset `0` of the cycle
(as in `exAnchor`) — because the pre-anchor test `time > start_point` is
strict, so the anchor itself falls into the `default` branch. -/
theorem floor_search_at_anchor {α : Type} (s : PeriodicSchedule α) :
    s.floor_search s.start_point = some s.default_val := by
  rw [PeriodicSchedule.floor_search, if_neg (lt_irrefl _)]

/-- Claim C8: for every schedule (constant or periodic) and every list of
query instants, in any order, `floor_multi_search` is exactly the pointwise
map of `floor_search` (the constant override `vec![value; times.len()]`
agrees with the trait's default mapping body). -/
theorem floor_multi_search_eq_map {α : Type} (sched : Schedule α) (ts : List Int) :
    sched.floor_multi_search ts = ts.map sched.floor_search := by
  cases sched with
  | periodic p => rfl
  | constant c =>
    show ConstantSchedule.floor_multi_search c ts = _
    induction ts with
    | nil => rfl
    | cons t ts ih =>
      rw [List.map_cons, ← ih]
      rw [ConstantSchedule.floor_multi_search, ConstantSchedule.floor_multi_search,
        List.length_cons, List.replicate_succ]
      rfl

/-- Counterexample to claim C1 as stated («at or after the anchor»): for
`exAnchor` the query `at = anchor = 0` is at the anchor, its cycle-relative
offset is `0`, the breakpoints `[0]` are strictly ascending with parallel
values `[1]`, and `t0 = 0 ≤ 0` holds, so the claim requires `v0 = 1`; the
code returns the default `0`. -/
theorem floor_search_anchor_cex :
    exAnchor.start_point = 0 ∧
    exAnchor.times.get? 0 = some 0 ∧
    exAnchor.values.get? 0 = some 1 ∧
    exAnchor.floor_search 0 = some 0 ∧
    exAnchor.floor_search 0 ≠ some 1 := by
  refine ⟨rfl, rfl, rfl, ?_, ?_⟩ <;> decide

/-- Witness for C1 (amended) at a concrete input: `exFloor` queried one
nanosecond after the anchor has offset `1 < t0 = 1h`, so evaluation falls
back to the default. -/
theorem floor_search_floor_correct_witness :
    exFloor.floor_search 1 = some exFloor.default_val :=
  (floor_search_floor_correct exFloor (by decide) (by decide) 1 (by decide) 1
    (by decide) (by decide) (by decide)).1 3600000000000 rfl (by decide)

/-- Counterexample to claim C2 as stated («once `at ≥ anchor` and
`at + k·period ≥ anchor`»): for `exAnchor`, `at = anchor = 0` and `k = 1`
satisfy both inequalities, yet evaluation at the anchor yields the default
`0` while evaluation one period later yields the breakpoint value `1`. -/
theorem floor_search_periodicity_cex :
    exAnchor.start_point ≤ 0 ∧
    exAnchor.start_point ≤ 0 + 1 * exAnchor.period ∧
    exAnchor.floor_search (0 + 1 * exAnchor.period) ≠ exAnchor.floor_search 0 := by
  refine ⟨by decide, by decide, by decide⟩

/-- Witness for C2 (amended) at a concrete input. -/
theorem floor_search_periodic_witness :
    exAnchor.floor_search (1 + 1 * exAnchor.period) = exAnchor.floor_search 1 :=
  floor_search_periodic exAnchor 3600 (by decide) (by decide) 1 1 (by decide)
    (by decide) (by decide) (by decide)

/-! ### Claim theorems: compilation -/

/-- A successfully built `PeriodicSchedule` keeps the anchor it was given. -/
theorem PeriodicSchedule.new_start_point {α : Type} (vt : String) (sd : Int)
    (p : ℚ) (ts : List ℚ) (vs : List α) (dv : α) (ps : PeriodicSchedule α)
    (h : PeriodicSchedule.new vt sd p ts vs dv = .ok ps) : ps.start_point = sd := by
  rw [PeriodicSchedule.new] at h
  cases hmp : Except.mapError
      (fun e => "Failed to parse period for periodic schedule: " ++ e)
      (hours_to_td p) with
  | error e1 =>
    rw [hmp] at h
    simp at h
  | ok pTD =>
    rw [hmp] at h
    cases hmt : Except.mapError
        (fun e => "Failed to parse time(s) for periodic schedule: " ++ e)
        (convert_times ts) with
    | error e1 =>
      rw [hmt] at h
      simp at h
    | ok tsTD =>
      rw [hmt] at h
      simp only [Except.ok.injEq] at h
      subst h
      rfl

/-- A periodic entry with `period == 24.0` that `parse_entry` accepts
compiles to a periodic schedule anchored at the shared `t24_start_point`
(the entry's `offset_time` never enters this branch). -/
theorem parse_entry_t24 {α : Type} (specs : List (String × VariableTypeSpec α))
    (sd t24 : Int) (name : String) (h : ScheduleHeader) (ts : List ℚ)
    (vs : List α) (ot : Option ℚ) (s : Schedule α)
    (hok : parse_entry specs sd t24 name (.periodic h 24 ts vs ot) = .ok s) :
    ∃ ps : PeriodicSchedule α, s = .periodic ps ∧ ps.start_point = t24 := by
  rw [parse_entry] at hok
  cases hl : specs.lookup (ScheduleEntry.periodic h 24 ts vs ot).variable_type with
  | none =>
    rw [hl] at hok
    simp at hok
  | some spec =>
    rw [hl] at hok
    simp only [ScheduleEntry.schedule_type, ScheduleEntry.period,
      ScheduleEntry.times, ScheduleEntry.values, if_true] at hok
    cases hnew : PeriodicSchedule.new
        ((ScheduleEntry.periodic h 24 ts vs ot).variable_type) t24 24 ts vs
        spec.default with
    | error e1 =>
      rw [hnew] at hok
      simp [Except.map] at hok
    | ok ps =>
      rw [hnew] at hok
      simp only [Except.map, Except.ok.injEq] at hok
      exact ⟨ps, hok.symm, PeriodicSchedule.new_start_point _ _ _ _ _ _ ps hnew⟩

/-- Claim C3: a periodic entry with `period == 24` and an `offset_time`
never compiles — it is rejected by `ScheduleEntry::is_valid`, which the
compilation pipeline (spec-modelled glue `compile`) runs on every entry —
and when the entry's explicit tag is absent or consistent the failure is
exactly the T24-offset error. -/
theorem compile_t24_offset_rejected {α : Type} (file : ScheduleFile α)
    (name : String) (h : ScheduleHeader) (ts : List ℚ) (vs : List α) (ot : ℚ)
    (hmem : (name, ScheduleEntry.periodic h 24 ts vs (some ot)) ∈
      file.variable_schedules) :
    (∀ m, compile file ≠ .ok m) ∧
    ((h.schedule_type = none ∨ h.schedule_type = some .periodic) →
      (ScheduleEntry.periodic h 24 ts vs (some ot)).is_valid = .error
        ("Error parsing " ++ h.variable_type ++
          ": T24 Periodic schedules are not allowed to include an offset time")) := by
  obtain ⟨⟨msg, hmsg⟩, hspecific⟩ := is_valid_t24_offset h ts vs ot
  refine ⟨?_, hspecific⟩
  intro m hok
  obtain ⟨msg2, h2⟩ := validate_entries_error_of_mem file.variable_schedules
    name _ hmem msg hmsg
  rw [compile, h2] at hok
  simp at hok

/-- Witness for C3 at a concrete input. -/
theorem compile_t24_offset_rejected_witness :
    (∀ m, compile exFileT24Offset ≠ .ok m) ∧
    (((⟨"T", none⟩ : ScheduleHeader).schedule_type = none ∨
        (⟨"T", none⟩ : ScheduleHeader).schedule_type = some .periodic) →
      (ScheduleEntry.periodic ⟨"T", none⟩ 24 [0] ([7] : List Int)
          (some 1)).is_valid = .error
        ("Error parsing " ++ (⟨"T", none⟩ : ScheduleHeader).variable_type ++
          ": T24 Periodic schedules are not allowed to include an offset time")) :=
  compile_t24_offset_rejected exFileT24Offset "v" ⟨"T", none⟩ [0] [7] 1 (by decide)

/-- Claim C9: an entry whose `variable_type` is not in the registry makes
the whole compilation fail — no resolved map at all is produced — and when
that entry is the first one reached (and the metadata parses), the error is
`Unknown variable type for` the entry's name. -/
theorem parse_schedules_unknown_type {α : Type} (file : ScheduleFile α)
    (name : String) (e : ScheduleEntry α)
    (hmem : (name, e) ∈ file.variable_schedules)
    (hunk : file.var_type_specs.lookup e.variable_type = none) :
    (∀ m, parse_schedules file ≠ .ok m) ∧
    (∀ d o rest, file.info.start_date = some d →
      file.info.start_offset = some o →
      file.variable_schedules = (name, e) :: rest →
      parse_schedules file = .error ("Unknown variable type for " ++ name)) := by
  constructor
  · intro m hok
    rw [parse_schedules] at hok
    cases hd : file.info.start_date with
    | none =>
      rw [hd] at hok
      simp at hok
    | some d =>
      rw [hd] at hok
      cases ho : file.info.start_offset with
      | none =>
        rw [ho] at hok
        simp at hok
      | some o =>
        rw [ho] at hok
        simp only at hok
        obtain ⟨msg2, h2⟩ := parse_schedules_go_error_of_mem file.var_type_specs d
          (midnight (d + hoursTD file.info.timezone) + o - hoursTD file.info.timezone)
          file.variable_schedules name e hmem _
          (parse_entry_unknown _ _ _ name e hunk)
        rw [h2] at hok
        simp at hok
  · intro d o rest hd ho hsched
    rw [parse_schedules, hd, ho, hsched]
    simp only
    rw [parse_schedules_go, parse_entry_unknown _ _ _ name e hunk]

/-- Witness for C9 at a concrete input. -/
theorem parse_schedules_unknown_type_witness :
    (∀ m, parse_schedules exFileUnknown ≠ .ok m) ∧
    parse_schedules exFileUnknown = .error ("Unknown variable type for " ++ "v") :=
  ⟨(parse_schedules_unknown_type exFileUnknown "v" (.default ⟨"U", none⟩)
      (by decide) (by decide)).1,
    (parse_schedules_unknown_type exFileUnknown "v" (.default ⟨"U", none⟩)
      (by decide) (by decide)).2 0 0 [] rfl rfl rfl⟩

/-- Claim C7: every T24 periodic entry a successful compilation accepts is
anchored at `localMidnight(start_date, timezone) + start_offset − timezone`
— a value computed once per file, independent of the entry (in particular of
its `offset_time`), so all T24 entries share it. -/
theorem parse_schedules_t24_anchor {α : Type} (file : ScheduleFile α)
    (m : List (String × Schedule α)) (hok : parse_schedules file = .ok m)
    (name : String) (e : ScheduleEntry α)
    (hmem : (name, e) ∈ file.variable_schedules)
    (hper : e.period = some 24)
    (hnodup : (file.variable_schedules.map Prod.fst).Nodup)
    (d o : Int) (hd : file.info.start_date = some d)
    (ho : file.info.start_offset = some o) :
    ∃ ps : PeriodicSchedule α, m.lookup name = some (.periodic ps) ∧
      ps.start_point =
        localMidnight d file.info.timezone + o - hoursTD file.info.timezone := by
  rw [parse_schedules, hd, ho] at hok
  simp only at hok
  obtain ⟨s, hs, hmem_m⟩ := parse_schedules_go_ok_mem file.var_type_specs d
    (midnight (d + hoursTD file.info.timezone) + o - hoursTD file.info.timezone)
    file.variable_schedules name e m hok hmem
  cases e with
  | constant h v => simp [ScheduleEntry.period] at hper
  | default h => simp [ScheduleEntry.period] at hper
  | periodic h p ts vs ot =>
    simp only [ScheduleEntry.period, Option.some.injEq] at hper
    subst hper
    obtain ⟨ps, rfl, hsp⟩ := parse_entry_t24 file.var_type_specs d _ name h ts vs ot s hs
    have hkeys := parse_schedules_go_keys file.var_type_specs d _
      file.variable_schedules m hok
    have hnodup_m : (m.map Prod.fst).Nodup := by
      rw [hkeys]
      exact hnodup
    exact ⟨ps, lookup_of_mem_nodup m name _ hnodup_m hmem_m, hsp⟩

/-- Witness for C7 at a concrete input: timezone 5 h, start date 123 ns,
start offset 11 ns; the anchor is `0 + 11 − 18e12` ns. -/
theorem parse_schedules_t24_anchor_witness :
    ∃ ps : PeriodicSchedule Int,
      (List.lookup "v" [("v", Schedule.periodic
        (⟨"T", -17999999999989, 86400000000000, [0], [7], 0⟩ :
          PeriodicSchedule Int))]) = some (.periodic ps) ∧
      ps.start_point =
        localMidnight 123 exFileT24.info.timezone + 11 -
          hoursTD exFileT24.info.timezone :=
  parse_schedules_t24_anchor exFileT24 _ (by decide) "v"
    (.periodic ⟨"T", none⟩ 24 [0] [7] none) (by decide) rfl (by decide) 123 11 rfl rfl

/-- Claim C4 is a code bug: `parse_schedules` (and `PeriodicSchedule::new`)
perform no validation of breakpoint order or of the `times`/`values`
lengths.  `exFileUnsorted`'s entry has unsorted breakpoints `[2, 1]` and a
`values` array of length 1 against 2 breakpoints, yet it compiles into a
resolved periodic schedule (the unsorted, mismatched arrays carried over
verbatim) instead of failing with `UnsortedBreakpoints`/`LengthMismatch`. -/
theorem parse_schedules_accepts_unsorted :
    parse_schedules exFileUnsorted =
      .ok [("v", .periodic
        (⟨"T", 0, 21600000000000, [7200000000000, 3600000000000], [7], 0⟩ :
          PeriodicSchedule Int))] := by
  decide

/-- Claim C5 is a code bug: the compiler accepts an entry with empty
`times`/`values` (`exFileEmpty` compiles to `exEmptySchedule`), and on any
query after the anchor `floor_search` then panics — `binary_search` returns
`Err(0)` and the `schedule_time < self.times[0]` test indexes the empty
slice (`none` marks the panic) — instead of returning a value. -/
theorem floor_search_empty_times_panics :
    parse_schedules exFileEmpty = .ok [("v", .periodic exEmptySchedule)] ∧
    exEmptySchedule.floor_search 1 = none := by
  refine ⟨by decide, by decide⟩

end LuzOptimon
